import Mathlib

/-!
Shallow embedding of the plume-impingement strike detection and
sliding-window constraint engine of `pyrpod/RPOD.py`.

Python floats are modelled as exact rationals (`ℚ`); the `queue.Queue`
FIFOs are modelled as lists whose head is the oldest element
(`put` appends, `get` takes the head).  A `Queue.get` on an empty queue
blocks forever in Python; every embedded operation that could reach such
a state returns `Option`, with `none` marking the blocked/undefined case.
-/

/-- The eviction loop of `RPOD.update_window_queue` (RPOD.py lines 402-405):
`while cur_window > window_size: old = queue.get(); cur_window -= old; k += 1`.
Returns the remaining queue, the remaining sum and the number of pops;
`none` models a blocking `get` on an empty queue. -/
def drainQueue (window_size : ℚ) : List ℚ → ℚ → Option (List ℚ × ℚ × ℕ)
  | [], cur => if cur ≤ window_size then some ([], cur, 0) else none
  | x :: rest, cur =>
    if cur ≤ window_size then some (x :: rest, cur, 0)
    else
      match drainQueue window_size rest (cur - x) with
      | none => none
      | some (q', c', k) => some (q', c', k + 1)

/-- `RPOD.update_window_queue` (RPOD.py lines 399-406): push `firing_time`
onto the shared duration queue, add it to the running sum, then evict
oldest durations while the sum exceeds `window_size`. -/
def update_window_queue (window_queue : List ℚ) (cur_window firing_time window_size : ℚ) :
    Option (List ℚ × ℚ × ℕ) :=
  drainQueue window_size (window_queue ++ [firing_time]) (cur_window + firing_time)

/-- `RPOD.update_parameter_queue` (RPOD.py lines 430-433): pop `get_counter`
entries from the front of a per-face queue, subtracting each from the
running sum.  `none` models a blocking `get` on an empty queue. -/
def update_parameter_queue : List ℚ → ℚ → ℕ → Option (List ℚ × ℚ)
  | q, s, 0 => some (q, s)
  | [], _, _ + 1 => none
  | x :: rest, s, k + 1 => update_parameter_queue rest (s - x) k

/-- State of one monitored quantity inside `jfh_plume_strikes`
(RPOD.py lines 502-527): the shared firing-duration timeline queue with
its running sum, and one FIFO queue plus running window sum per face. -/
structure QuantState where
  timeline : List ℚ
  cur : ℚ
  queues : List (List ℚ)
  sums : List ℚ
deriving DecidableEq

/-- The per-face contribution pushes of RPOD.py lines 675-680: for every
face, append this firing's contribution to the face's queue and add it to
the face's window sum. -/
def push_faces : List (List ℚ) → List ℚ → List ℚ → List (List ℚ) × List ℚ
  | q :: qs, s :: ss, c :: cs =>
    let rest := push_faces qs ss cs
    ((q ++ [c]) :: rest.1, (s + c) :: rest.2)
  | _, _, _ => ([], [])

/-- One face's eviction guard (RPOD.py lines 688-693).  For pressure
(`skip_if_zero = false`) the guard is `if not queue.empty()`; for heat
flux (`skip_if_zero = true`) it is
`if not queue.empty() and window_sum != 0`. -/
def evict_face (skip_if_zero : Bool) (k : ℕ) (q : List ℚ) (s : ℚ) :
    Option (List ℚ × ℚ) :=
  if q.isEmpty then some (q, s)
  else if skip_if_zero && (s == 0) then some (q, s)
  else update_parameter_queue q s k

/-- The per-face eviction loop of RPOD.py lines 688-693 applied to every
face's queue and window sum. -/
def evict_faces (skip_if_zero : Bool) (k : ℕ) :
    List (List ℚ) → List ℚ → Option (List (List ℚ) × List ℚ)
  | q :: qs, s :: ss =>
    match evict_face skip_if_zero k q s with
    | none => none
    | some (q', s') =>
      match evict_faces skip_if_zero k qs ss with
      | none => none
      | some (qs', ss') => some (q' :: qs', s' :: ss')
  | _, _ => some ([], [])

/-- One quantity's full window update for one firing
(RPOD.py lines 674-693): push every face's contribution, update the shared
timeline via `update_window_queue`, then replay the eviction count on
every face's queue. -/
def quantity_firing_step (skip_if_zero : Bool) (window_size firing_time : ℚ)
    (contribs : List ℚ) (st : QuantState) : Option QuantState :=
  let pushed := push_faces st.queues st.sums contribs
  match update_window_queue st.timeline st.cur firing_time window_size with
  | none => none
  | some (tq, tc, k) =>
    match evict_faces skip_if_zero k pushed.1 pushed.2 with
    | none => none
    | some (qs', ss') => some ⟨tq, tc, qs', ss'⟩

/-- Per-firing inputs to the window tracker: the firing duration and the
per-face pressure and heat-flux-load contributions of this firing. -/
structure FiringContribs where
  firing_time : ℚ
  pressures : List ℚ
  heat_flux_load : List ℚ
deriving DecidableEq

/-- The two monitored quantities' window states (pressure and
heat-flux load), as kept by `jfh_plume_strikes` when kinetics and
constraint checking are enabled. -/
structure ConstraintState where
  pressure : QuantState
  heat_flux : QuantState
deriving DecidableEq

/-- One firing's window update for both monitored quantities
(RPOD.py lines 674-693).  Pressure evicts unconditionally (its guard
`not queue.empty()` always passes after the push); heat flux skips
eviction for a face whose window sum is 0. -/
def firing_window_update (pressure_window_size heat_flux_window_size : ℚ)
    (f : FiringContribs) (st : ConstraintState) : Option ConstraintState :=
  match quantity_firing_step false pressure_window_size f.firing_time f.pressures st.pressure with
  | none => none
  | some p' =>
    match quantity_firing_step true heat_flux_window_size f.firing_time f.heat_flux_load st.heat_flux with
    | none => none
    | some h' => some ⟨p', h'⟩

/-- Replay of the window updates across a list of firings, in order. -/
def run_window_updates (pressure_window_size heat_flux_window_size : ℚ) :
    List FiringContribs → ConstraintState → Option ConstraintState
  | [], st => some st
  | f :: fs, st =>
    match firing_window_update pressure_window_size heat_flux_window_size f st with
    | none => none
    | some st' => run_window_updates pressure_window_size heat_flux_window_size fs st'

/-- Initial state of one quantity for `n` faces (RPOD.py lines 502-527):
empty timeline, zero running sums, one empty queue per face. -/
def init_quant (n : ℕ) : QuantState :=
  ⟨[], 0, List.replicate n [], List.replicate n 0⟩

/-- Initial window-tracker state for `n` faces. -/
def init_state (n : ℕ) : ConstraintState :=
  ⟨init_quant n, init_quant n⟩

/-- The timeline running sum is the sum of the timeline queue, and every
face's window sum is the sum of that face's queue while the queue length
equals the timeline queue's length.  This is the invariant claimed for
both quantities; the code maintains it for pressure. -/
def exact_inv (st : QuantState) : Prop :=
  st.cur = st.timeline.sum ∧
  List.Forall₂ (fun q s => s = q.sum ∧ q.length = st.timeline.length) st.queues st.sums

/-- Weakened invariant actually maintained for heat flux: window sums
still match queue contents, but a face's queue may be longer than the
timeline queue (eviction is skipped while the face's sum is 0). -/
def lax_inv (st : QuantState) : Prop :=
  st.cur = st.timeline.sum ∧
  List.Forall₂ (fun q s => s = q.sum ∧ st.timeline.length ≤ q.length) st.queues st.sums

/-- The strike decision of RPOD.py lines 638-645 for one face and one
thruster, over the already-computed scalars: `within_distance`
(`norm_distance < radius`), `within_theta` (`theta < wedge_theta`) and
`facing_thruster` (`surface_dot_plume < 0`), all strict comparisons. -/
def plume_strike (norm_distance theta surface_dot_plume radius wedge_theta : ℚ) : Bool :=
  let within_distance := decide (norm_distance < radius)
  let within_theta := decide (theta < wedge_theta)
  let facing_thruster := decide (surface_dot_plume < 0)
  within_distance && within_theta && facing_thruster

/-- A 3-vector with exact rational coordinates. -/
structure Vec3 where
  x : ℚ
  y : ℚ
  z : ℚ
deriving DecidableEq

/-- Componentwise difference of 3-vectors. -/
def vsub (a b : Vec3) : Vec3 := ⟨a.x - b.x, a.y - b.y, a.z - b.z⟩

/-- Squared Euclidean norm; the source's `norm_distance` is its square
root, so `norm_distance = 0` exactly when `norm_sq` is `0`. -/
def norm_sq (v : Vec3) : ℚ := v.x ^ 2 + v.y ^ 2 + v.z ^ 2

/-- RPOD.py lines 607-612: `distance = thruster_pos - centroid`;
`norm_distance = sqrt(dx**2 + dy**2 + dz**2)`;
`unit_distance = distance / norm_distance`.  The division is performed
unconditionally, with no zero-magnitude guard; when the distance vector
has zero magnitude the source divides by zero, modelled here as `none`.
Otherwise the direction vector is returned un-normalised: the positive
scale factor `1/norm_distance` needs real square roots and plays no role
in the zero test. -/
def unit_distance_calc (thruster_pos centroid : Vec3) : Option Vec3 :=
  let distance := vsub thruster_pos centroid
  if norm_sq distance = 0 then none
  else some distance

/-- RPOD.py line 625: `theta = 3.14 - np.arccos(np.dot(unit_distance,
unit_plume_normal))` — the plume-centerline angle the code computes from
the dot product of the unit distance and unit plume-axis vectors, with the
hard-coded constant `3.14`. -/
noncomputable def theta_calc (dot_ud_up : ℝ) : ℝ := 3.14 - Real.arccos dot_ud_up

/-- Modelled from the spec for comparison with `theta_calc`:
`θ = π − arccos(dot(unit_distance, unit_plume_axis))`. -/
noncomputable def theta_spec_angle (dot_ud_up : ℝ) : ℝ := Real.pi - Real.arccos dot_ud_up

/-- The five constraint kinds checked in RPOD.py lines 696-717, in
source order. -/
inductive VKind where
  | pressure
  | shear
  | heatFlux
  | pressureWindow
  | heatFluxWindow
deriving DecidableEq

/-- Whether a constraint kind is an instantaneous (per-firing) threshold
rather than a windowed one. -/
def VKind.instantaneous : VKind → Bool
  | .pressure => true
  | .shear => true
  | .heatFlux => true
  | .pressureWindow => false
  | .heatFluxWindow => false

/-- The five per-face values compared against thresholds for one firing:
`pressures[qi]`, `shear_stresses[qi]`, `heat_flux[qi]`,
`pressure_window_sums[qi]`, `heat_flux_window_sums[qi]`. -/
structure FaceVals where
  pressure : ℚ
  shear : ℚ
  heat_flux : ℚ
  pressure_window : ℚ
  heat_flux_window : ℚ
deriving DecidableEq

/-- The configured thresholds (RPOD.py lines 490-495). -/
structure Limits where
  pressure : ℚ
  shear : ℚ
  heat_flux : ℚ
  pressure_window : ℚ
  heat_flux_window : ℚ
deriving DecidableEq

/-- What one violation write to `impingement_report.txt` contains:
the constraint kind, a cell number and the observed value. -/
structure Written where
  kind : VKind
  cell : ℕ
  value : ℚ
deriving DecidableEq

/-- One threshold comparison: its boolean outcome, its kind, the face
(`queue_index`) and firing at which it is evaluated, and the value
compared. -/
structure Check where
  cond : Bool
  kind : VKind
  face : ℕ
  firing : ℕ
  value : ℚ
deriving DecidableEq

/-- The five threshold comparisons of RPOD.py lines 696-717 for one face
in one firing, in source order; all use strict `>` against the
configured limit. -/
def face_checks (lim : Limits) (firing_idx face_idx : ℕ) (v : FaceVals) : List Check :=
  [⟨decide (lim.pressure < v.pressure), .pressure, face_idx, firing_idx, v.pressure⟩,
   ⟨decide (lim.shear < v.shear), .shear, face_idx, firing_idx, v.shear⟩,
   ⟨decide (lim.heat_flux < v.heat_flux), .heatFlux, face_idx, firing_idx, v.heat_flux⟩,
   ⟨decide (lim.pressure_window < v.pressure_window), .pressureWindow, face_idx, firing_idx,
     v.pressure_window⟩,
   ⟨decide (lim.heat_flux_window < v.heat_flux_window), .heatFluxWindow, face_idx, firing_idx,
     v.heat_flux_window⟩]

/-- The record the source writes for a violated check.  Instantaneous
checks print `cell #{i}` where `i` is the stale face-loop variable
(RPOD.py lines 696-707), whose value at that point is the index of the
mesh's last face; window checks print `cell #{queue_index}` (lines
710-717).  No firing index is written. -/
def Check.written (last_idx : ℕ) (c : Check) : Written :=
  ⟨c.kind, if c.kind.instantaneous then last_idx else c.face, c.value⟩

/-- One guarded write of RPOD.py lines 696-717:
`if cond and not failed_constraints: write(record); failed_constraints = 1`. -/
def latch_step (last_idx : ℕ) (st : Bool × List Written) (c : Check) : Bool × List Written :=
  if c.cond && !st.1 then (true, st.2 ++ [c.written last_idx]) else st

/-- The per-face threshold inputs of one firing. -/
structure FiringVals where
  faces : List FaceVals
deriving DecidableEq

/-- All threshold checks of one firing, looping `queue_index` over the
faces in order (RPOD.py line 688). -/
def firing_checks (lim : Limits) (firing_idx : ℕ) (fv : FiringVals) : List Check :=
  fv.faces.enum.flatMap fun p => face_checks lim firing_idx p.1 p.2

/-- All threshold checks of a whole run, in replay order. -/
def run_checks (lim : Limits) (run : List FiringVals) : List Check :=
  run.enum.flatMap fun p => firing_checks lim p.1 p.2

/-- The latched constraint reporting of RPOD.py lines 696-717 across a
whole run: the final `failed_constraints` flag and the list of violation
records written, starting from flag clear and an empty report. -/
def run_report (lim : Limits) (last_idx : ℕ) (run : List FiringVals) : Bool × List Written :=
  (run_checks lim run).foldl (latch_step last_idx) (false, [])

/-- RPOD.py lines 740-742: the closing line `All impingement constraints
met.` is written iff `failed_constraints` was never latched. -/
def all_met_line (lim : Limits) (last_idx : ℕ) (run : List FiringVals) : Bool :=
  !(run_report lim last_idx run).1

/-- The violations that actually occur in a run, in replay order, with
their true cell and firing indices. -/
def observed_violations (lim : Limits) (run : List FiringVals) : List Check :=
  (run_checks lim run).filter (fun c => c.cond)

/-- Per-face cumulative state across firings (RPOD.py lines 472-484):
cumulative strike count, running max pressure, running max shear and
cumulative heat-flux load. -/
structure CellAccum where
  cum_strikes : ℚ
  max_pressure : ℚ
  max_shear : ℚ
  cum_heat_flux_load : ℚ
deriving DecidableEq

/-- Per-face per-firing scratch state, reset to zero at the start of each
firing (RPOD.py lines 539-551). -/
structure FiringCell where
  strikes : ℚ
  pressures : ℚ
  shear_stresses : ℚ
  heat_flux : ℚ
  heat_flux_load : ℚ
deriving DecidableEq

/-- One active thruster's result for one face: whether its plume strike
test passed and the kinetics model's pressure, shear and heat-flux-rate
returns for it. -/
structure ThrusterHit where
  strike : Bool
  pressure : ℚ
  shear : ℚ
  heat_flux : ℚ
deriving DecidableEq

/-- RPOD.py lines 643-667 for one face and one active thruster: on a
strike, increment the cumulative strike count, set the per-firing strike
flag to 1, add the kinetics returns into the per-firing totals (shear via
absolute value), raise the running maxima against the per-firing totals,
and add `heat_flux * firing_time` to both the per-firing and the
cumulative heat-flux load. -/
def apply_thruster (firing_time : ℚ) (st : CellAccum × FiringCell) (h : ThrusterHit) :
    CellAccum × FiringCell :=
  if h.strike then
    let acc := st.1
    let fc := st.2
    let pressures' := fc.pressures + h.pressure
    let max_pressure' := if acc.max_pressure < pressures' then pressures' else acc.max_pressure
    let shear' := fc.shear_stresses + |h.shear|
    let max_shear' := if acc.max_shear < shear' then shear' else acc.max_shear
    (⟨acc.cum_strikes + 1, max_pressure', max_shear',
      acc.cum_heat_flux_load + h.heat_flux * firing_time⟩,
     ⟨1, pressures', shear', fc.heat_flux + h.heat_flux,
      fc.heat_flux_load + h.heat_flux * firing_time⟩)
  else st

/-- The zeroed per-firing scratch state. -/
def zero_firing_cell : FiringCell := ⟨0, 0, 0, 0, 0⟩

/-- One firing's accumulation for one face over the firing's active
thrusters, starting from freshly reset per-firing scalars. -/
def process_cell_firing (firing_time : ℚ) (acc : CellAccum) (hits : List ThrusterHit) :
    CellAccum × FiringCell :=
  hits.foldl (apply_thruster firing_time) (acc, zero_firing_cell)

/-- The claim's queue-length property for one quantity: every face's
queue has the timeline queue's length. -/
def queues_match_timeline (st : QuantState) : Bool :=
  st.queues.all fun q => q.length == st.timeline.length

/-- Three firings of duration 10 on a one-face mesh with window sizes 15:
pressure contribution 5 and heat-flux-load contribution 0 per firing. -/
def c1_run : List FiringContribs :=
  [⟨10, [5], [0]⟩, ⟨10, [5], [0]⟩, ⟨10, [5], [0]⟩]

/-- Scenario B of the spec on a one-face mesh: firings of duration 10
with per-cell contribution 5 each, window size 15 for both quantities. -/
def c8_run : List FiringContribs :=
  [⟨10, [5], [5]⟩, ⟨10, [5], [5]⟩, ⟨10, [5], [5]⟩]

/-- Thresholds with the instantaneous pressure limit at 1 and all other
limits at 100. -/
def c7_limits : Limits := ⟨1, 100, 100, 100, 100⟩

/-- A single firing over a two-face mesh whose first face carries an
instantaneous pressure of 8, violating the pressure limit of 1; the
second face is quiet.  The stale loop variable `i` equals 1 (the last
face index). -/
def c7_run : List FiringVals := [⟨[⟨8, 0, 0, 0, 0⟩, ⟨0, 0, 0, 0, 0⟩]⟩]

theorem drainQueue_spec (window_size : ℚ) :
    ∀ (q : List ℚ) (cur : ℚ), cur = q.sum → 0 ≤ window_size →
    ∃ k, drainQueue window_size q cur = some (q.drop k, (q.drop k).sum, k) ∧
      k ≤ q.length ∧ (q.drop k).sum ≤ window_size := by
  intro q
  induction q with
  | nil =>
    intro cur hc hw
    refine ⟨0, ?_, by simp, by simpa [hc] using hw⟩
    simp [drainQueue, hc, hw]
  | cons x rest ih =>
    intro cur hc hw
    subst hc
    by_cases hle : x + rest.sum ≤ window_size
    · exact ⟨0, by simp [drainQueue, hle], Nat.zero_le _, by simpa using hle⟩
    · have hgt : window_size < x + rest.sum := lt_of_not_le hle
      have hrest : x + rest.sum - x = rest.sum := by ring
      obtain ⟨k, hk, hklen, hksum⟩ := ih rest.sum rfl hw
      refine ⟨k + 1, ?_, by simpa using Nat.succ_le_succ hklen, by simpa using hksum⟩
      simp [drainQueue, hle, hgt, hrest, hk]

theorem update_parameter_queue_spec :
    ∀ (k : ℕ) (q : List ℚ) (s : ℚ), s = q.sum → k ≤ q.length →
    update_parameter_queue q s k = some (q.drop k, (q.drop k).sum) := by
  intro k
  induction k with
  | zero =>
    intro q s hs _
    simp [update_parameter_queue, hs]
  | succ k ih =>
    intro q s hs hk
    match q with
    | [] => simp at hk
    | x :: rest =>
      have hs' : s - x = rest.sum := by rw [hs, List.sum_cons]; ring
      have hk' : k ≤ rest.length := Nat.succ_le_succ_iff.mp (by simpa using hk)
      simpa [update_parameter_queue] using ih rest (s - x) hs' hk'

/-- C2: on a consistent queue state (`cur_window` is the sum of the queue)
with non-negative `firing_time` and `window_size`, `update_window_queue`
terminates (returns `some`), the returned queue is the pushed queue with
its `k` oldest entries evicted, the returned sum equals the sum of the
remaining entries and is at most `window_size`, and `k` is the eviction
count. -/
theorem C2_update_window_queue_correct
    (q : List ℚ) (cur firing_time window_size : ℚ)
    (hc : cur = q.sum) (hft : 0 ≤ firing_time) (hw : 0 ≤ window_size) :
    ∃ k, update_window_queue q cur firing_time window_size =
        some ((q ++ [firing_time]).drop k, ((q ++ [firing_time]).drop k).sum, k) ∧
      ((q ++ [firing_time]).drop k).sum ≤ window_size ∧
      k ≤ q.length + 1 := by
  have hsum : cur + firing_time = (q ++ [firing_time]).sum := by
    rw [List.sum_append, List.sum_cons, List.sum_nil, hc]; ring
  obtain ⟨k, hk, hklen, hksum⟩ :=
    drainQueue_spec window_size (q ++ [firing_time]) (cur + firing_time) hsum hw
  exact ⟨k, hk, hksum, by simpa using hklen⟩

/-- C2 witness: a concrete run of `update_window_queue` through the theorem. -/
theorem C2_update_window_queue_correct_witness :
    ∃ k, update_window_queue [10, 10] 20 10 15 =
        some ((([10, 10] : List ℚ) ++ [10]).drop k, ((([10, 10] : List ℚ) ++ [10]).drop k).sum, k) ∧
      ((([10, 10] : List ℚ) ++ [10]).drop k).sum ≤ 15 ∧
      k ≤ ([10, 10] : List ℚ).length + 1 :=
  C2_update_window_queue_correct [10, 10] 20 10 15 (by norm_num) (by norm_num) (by norm_num)

theorem push_faces_forall {P Q : List ℚ → ℚ → Prop}
    (h : ∀ q s c, P q s → Q (q ++ [c]) (s + c)) :
    ∀ (qs : List (List ℚ)) (ss cs : List ℚ), List.Forall₂ P qs ss → qs.length = cs.length →
    List.Forall₂ Q (push_faces qs ss cs).1 (push_faces qs ss cs).2 ∧
      (push_faces qs ss cs).1.length = qs.length := by
  intro qs
  induction qs with
  | nil =>
    intro ss cs hf _
    cases hf
    simp [push_faces]
  | cons q qs ih =>
    intro ss cs hf hlen
    cases hf with
    | cons hp htail =>
      match cs with
      | [] => simp at hlen
      | c :: cs' =>
        have hlen' : qs.length = cs'.length := by simpa using hlen
        obtain ⟨hforall, hl⟩ := ih _ cs' htail hlen'
        exact ⟨List.Forall₂.cons (h _ _ _ hp) hforall, by simp [push_faces, hl]⟩

theorem evict_faces_forall {P Q : List ℚ → ℚ → Prop} {b : Bool} {k : ℕ}
    (h : ∀ q s, P q s → ∃ q' s', evict_face b k q s = some (q', s') ∧ Q q' s') :
    ∀ (qs : List (List ℚ)) (ss : List ℚ), List.Forall₂ P qs ss →
    ∃ qs' ss', evict_faces b k qs ss = some (qs', ss') ∧ List.Forall₂ Q qs' ss' ∧
      qs'.length = qs.length := by
  intro qs
  induction qs with
  | nil =>
    intro ss hf
    cases hf
    exact ⟨[], [], rfl, List.Forall₂.nil, rfl⟩
  | cons q qs ih =>
    intro ss hf
    cases hf with
    | cons hp htail =>
      obtain ⟨q', s', he, hq⟩ := h _ _ hp
      obtain ⟨qs', ss', he', hq', hl⟩ := ih _ htail
      refine ⟨q' :: qs', s' :: ss', ?_, List.Forall₂.cons hq hq', by simp [hl]⟩
      simp [evict_faces, he, he']

theorem evict_face_exact {k L : ℕ} {q : List ℚ} {s : ℚ}
    (hq : s = q.sum) (hlen : q.length = L + 1) (hk : k ≤ L + 1) :
    evict_face false k q s = some (q.drop k, (q.drop k).sum) ∧
      (q.drop k).length = L + 1 - k := by
  have hne : q.isEmpty = false := by
    cases q with
    | nil => simp at hlen
    | cons a t => simp
  have hkq : k ≤ q.length := by omega
  constructor
  · rw [evict_face, hne]
    simpa using update_parameter_queue_spec k q s hq hkq
  · simp [hlen]

theorem evict_face_lax {k L : ℕ} {q : List ℚ} {s : ℚ}
    (hq : s = q.sum) (hlen : L + 1 ≤ q.length) (hk : k ≤ L + 1) :
    ∃ q' s', evict_face true k q s = some (q', s') ∧ s' = q'.sum ∧
      L + 1 - k ≤ q'.length := by
  have hne : q.isEmpty = false := by
    cases q with
    | nil => simp at hlen
    | cons a t => simp
  by_cases hz : s = 0
  · refine ⟨q, s, ?_, hq, by omega⟩
    rw [evict_face, hne]
    simp [hz]
  · have hkq : k ≤ q.length := by omega
    refine ⟨q.drop k, (q.drop k).sum, ?_, rfl, by simp; omega⟩
    rw [evict_face, hne]
    have hz' : (s == 0) = false := by simpa using hz
    simpa [hz'] using update_parameter_queue_spec k q s hq hkq

theorem quantity_step_exact (window_size firing_time : ℚ) (contribs : List ℚ) (st : QuantState)
    (hinv : exact_inv st) (hlen : st.queues.length = contribs.length) (hw : 0 ≤ window_size) :
    ∃ st', quantity_firing_step false window_size firing_time contribs st = some st' ∧
      exact_inv st' ∧ st'.queues.length = st.queues.length := by
  obtain ⟨hcur, hf⟩ := hinv
  obtain ⟨k, ht, hklen, htsum⟩ :=
    drainQueue_spec window_size (st.timeline ++ [firing_time]) (st.cur + firing_time)
      (by rw [hcur, List.sum_append, List.sum_cons, List.sum_nil]; ring) hw
  obtain ⟨hpushf, hpushlen⟩ :=
    push_faces_forall
      (P := fun q s => s = q.sum ∧ q.length = st.timeline.length)
      (Q := fun q s => s = q.sum ∧ q.length = st.timeline.length + 1)
      (fun q s c hp => ⟨by rw [hp.1]; simp, by simp [hp.2]⟩)
      st.queues st.sums contribs hf hlen
  have hk1 : k ≤ st.timeline.length + 1 := by simpa using hklen
  obtain ⟨qs', ss', he, hq', hl'⟩ :=
    evict_faces_forall
      (P := fun q s => s = q.sum ∧ q.length = st.timeline.length + 1)
      (Q := fun q s => s = q.sum ∧ q.length = st.timeline.length + 1 - k)
      (fun q s hp => ⟨q.drop k, (q.drop k).sum,
        (evict_face_exact hp.1 hp.2 hk1).1, rfl, (evict_face_exact hp.1 hp.2 hk1).2⟩)
      _ _ hpushf
  have hlen_t : ((st.timeline ++ [firing_time]).drop k).length = st.timeline.length + 1 - k := by
    simp
  refine ⟨⟨(st.timeline ++ [firing_time]).drop k, ((st.timeline ++ [firing_time]).drop k).sum,
    qs', ss'⟩, ?_, ⟨rfl, ?_⟩, ?_⟩
  · simp only [quantity_firing_step, update_window_queue, ht, he]
  · exact hq'.imp fun q s hp => ⟨hp.1, by rw [hp.2, hlen_t]⟩
  · simpa [hpushlen] using hl'

theorem quantity_step_lax (window_size firing_time : ℚ) (contribs : List ℚ) (st : QuantState)
    (hinv : lax_inv st) (hlen : st.queues.length = contribs.length) (hw : 0 ≤ window_size) :
    ∃ st', quantity_firing_step true window_size firing_time contribs st = some st' ∧
      lax_inv st' ∧ st'.queues.length = st.queues.length := by
  obtain ⟨hcur, hf⟩ := hinv
  obtain ⟨k, ht, hklen, htsum⟩ :=
    drainQueue_spec window_size (st.timeline ++ [firing_time]) (st.cur + firing_time)
      (by rw [hcur, List.sum_append, List.sum_cons, List.sum_nil]; ring) hw
  obtain ⟨hpushf, hpushlen⟩ :=
    push_faces_forall
      (P := fun q s => s = q.sum ∧ st.timeline.length ≤ q.length)
      (Q := fun q s => s = q.sum ∧ st.timeline.length + 1 ≤ q.length)
      (fun q s c hp => ⟨by rw [hp.1]; simp, by simp; omega⟩)
      st.queues st.sums contribs hf hlen
  have hk1 : k ≤ st.timeline.length + 1 := by simpa using hklen
  obtain ⟨qs', ss', he, hq', hl'⟩ :=
    evict_faces_forall
      (P := fun q s => s = q.sum ∧ st.timeline.length + 1 ≤ q.length)
      (Q := fun q s => s = q.sum ∧ st.timeline.length + 1 - k ≤ q.length)
      (fun q s hp => by
        obtain ⟨q', s', he', hs', hl'⟩ := evict_face_lax hp.1 hp.2 hk1
        exact ⟨q', s', he', hs', hl'⟩)
      _ _ hpushf
  have hlen_t : ((st.timeline ++ [firing_time]).drop k).length = st.timeline.length + 1 - k := by
    simp
  refine ⟨⟨(st.timeline ++ [firing_time]).drop k, ((st.timeline ++ [firing_time]).drop k).sum,
    qs', ss'⟩, ?_, ⟨rfl, ?_⟩, ?_⟩
  · simp only [quantity_firing_step, update_window_queue, ht, he]
  · exact hq'.imp fun q s hp => ⟨hp.1, by rw [hlen_t]; exact hp.2⟩
  · simpa [hpushlen] using hl'

theorem forall2_replicate {P : List ℚ → ℚ → Prop} (h : P [] 0) :
    ∀ n, List.Forall₂ P (List.replicate n []) (List.replicate n 0) := by
  intro n
  induction n with
  | zero => simpa using List.Forall₂.nil
  | succ n ih => simpa [List.replicate_succ] using List.Forall₂.cons h ih

theorem init_quant_exact (n : ℕ) : exact_inv (init_quant n) := by
  refine ⟨by simp [init_quant], ?_⟩
  simpa [init_quant] using forall2_replicate (by simp) n

theorem init_quant_lax (n : ℕ) : lax_inv (init_quant n) := by
  refine ⟨by simp [init_quant], ?_⟩
  simpa [init_quant] using forall2_replicate (by simp) n

theorem run_window_updates_inv (pw hw : ℚ) (hpw : 0 ≤ pw) (hhw : 0 ≤ hw) (n : ℕ) :
    ∀ (fs : List FiringContribs) (st : ConstraintState),
    exact_inv st.pressure → lax_inv st.heat_flux →
    st.pressure.queues.length = n → st.heat_flux.queues.length = n →
    (∀ f ∈ fs, f.pressures.length = n ∧ f.heat_flux_load.length = n) →
    ∃ st', run_window_updates pw hw fs st = some st' ∧
      exact_inv st'.pressure ∧ lax_inv st'.heat_flux ∧
      st'.pressure.queues.length = n ∧ st'.heat_flux.queues.length = n := by
  intro fs
  induction fs with
  | nil =>
    intro st h1 h2 h3 h4 _
    exact ⟨st, rfl, h1, h2, h3, h4⟩
  | cons f fs ih =>
    intro st h1 h2 h3 h4 hf
    obtain ⟨hfp, hfh⟩ := hf f (by simp)
    obtain ⟨p', hep, hip, hlp⟩ :=
      quantity_step_exact pw f.firing_time f.pressures st.pressure h1 (h3.trans hfp.symm) hpw
    obtain ⟨h', heh, hih, hlh⟩ :=
      quantity_step_lax hw f.firing_time f.heat_flux_load st.heat_flux h2 (h4.trans hfh.symm) hhw
    obtain ⟨st', her, hr1, hr2, hr3, hr4⟩ :=
      ih ⟨p', h'⟩ hip hih (hlp.trans h3) (hlh.trans h4)
        (fun g hg => hf g (List.mem_cons_of_mem f hg))
    refine ⟨st', ?_, hr1, hr2, hr3, hr4⟩
    have hstep : firing_window_update pw hw f st = some ⟨p', h'⟩ := by
      simp only [firing_window_update, hep, heh]
    simp only [run_window_updates, hstep]
    exact her

/-- C1 (amended): with kinetics and constraint checking enabled,
non-negative window sizes and per-face contribution lists of the mesh's
size, after each firing's window update the pressure tracker satisfies
the claimed invariant in full — every face's running window sum equals
the sum of the entries in its queue, and every face's queue length equals
the shared firing-duration timeline queue's length — while the heat-flux
tracker satisfies the running-sum equality but only
`timeline.length ≤ queue.length` per face: eviction is skipped for a face
whose heat-flux window sum is 0, so such a face's queue outgrows the
shared timeline. -/
theorem C1_window_invariants (n : ℕ) (pw hw : ℚ) (fs : List FiringContribs)
    (hpw : 0 ≤ pw) (hhw : 0 ≤ hw)
    (hlen : ∀ f ∈ fs, f.pressures.length = n ∧ f.heat_flux_load.length = n) :
    ∃ st', run_window_updates pw hw fs (init_state n) = some st' ∧
      exact_inv st'.pressure ∧ lax_inv st'.heat_flux := by
  obtain ⟨st', he, h1, h2, _, _⟩ :=
    run_window_updates_inv pw hw hpw hhw n fs (init_state n)
      (init_quant_exact n) (init_quant_lax n)
      (by simp [init_state, init_quant]) (by simp [init_state, init_quant]) hlen
  exact ⟨st', he, h1, h2⟩

/-- C1 witness: the invariants instantiated on a concrete three-firing
run over a one-face mesh. -/
theorem C1_window_invariants_witness :
    ∃ st', run_window_updates 15 15 c1_run (init_state 1) = some st' ∧
      exact_inv st'.pressure ∧ lax_inv st'.heat_flux :=
  C1_window_invariants 1 15 15 c1_run (by norm_num) (by norm_num)
    (by intro f hf; fin_cases hf <;> exact ⟨rfl, rfl⟩)

/-- C1 counterexample: on a one-face mesh, three 10-second firings with
window size 15 and zero heat-flux contributions leave the face's
heat-flux queue with 3 entries while the shared heat-flux timeline queue
holds 1, refuting the claim that every face queue's length equals the
shared timeline queue's length. -/
theorem C1_queue_length_counterexample :
    run_window_updates 15 15 c1_run (init_state 1) =
      some ⟨⟨[10], 10, [[5]], [5]⟩, ⟨[10], 10, [[0, 0, 0]], [0]⟩⟩ ∧
    queues_match_timeline ⟨[10], 10, [[0, 0, 0]], [0]⟩ = false := by
  constructor
  · norm_num [c1_run, init_state, init_quant, run_window_updates, firing_window_update,
      quantity_firing_step, update_window_queue, drainQueue, push_faces, evict_face,
      evict_faces, update_parameter_queue, List.replicate]
  · norm_num [queues_match_timeline]

/-- C8 counterexample: in the spec's Scenario B (durations 10 s,
window size 15 s, per-cell contribution 5 per firing) the window sum
after firing 2 is already 5, not the claimed 10: the second firing's
update evicts firing 1's entry because 10 + 10 = 20 s exceeds the
15 s window. -/
theorem C8_scenario_counterexample :
    (∃ st, run_window_updates 15 15 (c8_run.take 2) (init_state 1) = some st ∧
      st.pressure.sums = [5] ∧ st.heat_flux.sums = [5]) ∧ (5 : ℚ) ≠ 10 :=
  ⟨⟨⟨⟨[10], 10, [[5]], [5]⟩, ⟨[10], 10, [[5]], [5]⟩⟩, by
    norm_num [c8_run, init_state, init_quant, run_window_updates, firing_window_update,
      quantity_firing_step, update_window_queue, drainQueue, push_faces, evict_face,
      evict_faces, update_parameter_queue, List.replicate], rfl, rfl⟩, by norm_num⟩

/-- C8 (amended): in Scenario B the second firing's window update already
evicts firing 1's entry (duration sum 20 s > 15 s), leaving window sum 5
(firing 2's contribution only); the third firing's update likewise evicts
firing 2's entry, leaving window sum 5 (firing 3's contribution only). -/
theorem C8_scenario_amended :
    (run_window_updates 15 15 (c8_run.take 2) (init_state 1)).map
        (fun st => (st.pressure.queues, st.pressure.sums)) = some ([[5]], [5]) ∧
    (run_window_updates 15 15 c8_run (init_state 1)).map
        (fun st => (st.pressure.queues, st.pressure.sums)) = some ([[5]], [5]) := by
  constructor
  · norm_num [c8_run, init_state, init_quant, run_window_updates, firing_window_update,
      quantity_firing_step, update_window_queue, drainQueue, push_faces, evict_face,
      evict_faces, update_parameter_queue, List.replicate]
  · norm_num [c8_run, init_state, init_quant, run_window_updates, firing_window_update,
      quantity_firing_step, update_window_queue, drainQueue, push_faces, evict_face,
      evict_faces, update_parameter_queue, List.replicate]

/-- C3: a face/thruster pair is recorded as a strike iff all three
conditions hold with strict inequality — distance below the configured
plume radius, plume-centerline angle below the configured wedge
half-angle, and dot(face unit normal, unit plume axis) negative; a face
exactly at the radius, or exactly at the wedge half-angle, is not a
strike. -/
theorem C3_plume_strike_strict
    (norm_distance theta surface_dot_plume radius wedge_theta : ℚ) :
    (plume_strike norm_distance theta surface_dot_plume radius wedge_theta = true ↔
      norm_distance < radius ∧ theta < wedge_theta ∧ surface_dot_plume < 0) ∧
    (norm_distance = radius →
      plume_strike norm_distance theta surface_dot_plume radius wedge_theta = false) ∧
    (theta = wedge_theta →
      plume_strike norm_distance theta surface_dot_plume radius wedge_theta = false) := by
  refine ⟨by simp [plume_strike, and_assoc], ?_, ?_⟩
  · intro h
    subst h
    simp [plume_strike]
  · intro h
    subst h
    simp [plume_strike]

/-- C3 witness: a face at distance 1/2 with angle 0, facing the thruster,
is a strike with radius 1 and wedge half-angle 1/5; a face exactly at the
radius, or exactly at the wedge half-angle, is not. -/
theorem C3_plume_strike_strict_witness :
    plume_strike (1/2) 0 (-1) 1 (1/5) = true ∧
    plume_strike 1 0 (-1) 1 (1/5) = false ∧
    plume_strike (1/2) (1/5) (-1) 1 (1/5) = false :=
  ⟨(C3_plume_strike_strict (1/2) 0 (-1) 1 (1/5)).1.mpr (by norm_num),
   (C3_plume_strike_strict 1 0 (-1) 1 (1/5)).2.1 rfl,
   (C3_plume_strike_strict (1/2) (1/5) (-1) 1 (1/5)).2.2 rfl⟩

/-- C4: the strike computation does NOT guard against a zero-magnitude
distance vector — RPOD.py line 612 divides by `norm_distance`
unconditionally, so a face/thruster pair with coincident thruster exit
and face centroid reaches a division by zero (modelled as `none`),
contradicting the claim that the pair is guarded and no division by zero
ever happens. -/
theorem C4_zero_distance_divides_by_zero :
    unit_distance_calc ⟨0, 0, 0⟩ ⟨0, 0, 0⟩ = none := by
  norm_num [unit_distance_calc, vsub, norm_sq]

/-- C5 counterexample: for a face centroid directly along the plume axis
(dot product −1) the angle the code computes is 3.14 − arccos(−1) =
3.14 − π < 0, which differs from the spec's π − arccos(−1) = 0; so theta
is not π − arccos(dot) and theta = 0 does not mark the on-axis direction. -/
theorem C5_theta_counterexample :
    theta_calc (-1) ≠ theta_spec_angle (-1) ∧ theta_calc (-1) ≠ 0 := by
  have harc : Real.arccos (-1) = Real.pi := Real.arccos_neg_one
  have hpi : (3.14 : ℝ) < Real.pi := by
    have h := Real.pi_gt_d6
    norm_num at h ⊢
    linarith
  constructor
  · rw [theta_calc, theta_spec_angle, harc]
    intro h
    have : (3.14 : ℝ) = Real.pi := by linarith [sub_left_injective.eq_iff.mp h]
    linarith
  · rw [theta_calc, harc]
    intro h
    have : (3.14 : ℝ) = Real.pi := by linarith
    linarith

/-- C5 (amended): the angle used in the strike test is
3.14 − arccos(dot), with the hard-coded constant 3.14 rather than π; it
is everywhere smaller than the spec's π − arccos(dot) by exactly
π − 3.14 ≈ 0.0016, and a face directly along the plume axis gets the
slightly negative angle 3.14 − π rather than 0. -/
theorem C5_theta_uses_314 (d : ℝ) :
    theta_calc d < theta_spec_angle d ∧
    theta_spec_angle d - theta_calc d = Real.pi - 3.14 ∧
    theta_calc (-1) = 3.14 - Real.pi := by
  have hpi : (3.14 : ℝ) < Real.pi := by
    have h := Real.pi_gt_d6
    norm_num at h ⊢
    linarith
  refine ⟨?_, ?_, ?_⟩
  · rw [theta_calc, theta_spec_angle]
    linarith
  · rw [theta_calc, theta_spec_angle]
    ring
  · rw [theta_calc, Real.arccos_neg_one]

theorem foldl_latch_true (last_idx : ℕ) :
    ∀ (L : List Check) (rs : List Written),
    L.foldl (latch_step last_idx) (true, rs) = (true, rs) := by
  intro L
  induction L with
  | nil => intro rs; rfl
  | cons c L ih => intro rs; simpa [latch_step] using ih rs

theorem foldl_latch_false (last_idx : ℕ) :
    ∀ (L : List Check) (rs : List Written),
    L.foldl (latch_step last_idx) (false, rs) =
      (!(L.filter (fun c => c.cond)).isEmpty,
       rs ++ ((L.filter (fun c => c.cond)).map (Check.written last_idx)).take 1) := by
  intro L
  induction L with
  | nil => intro rs; simp
  | cons c L ih =>
    intro rs
    by_cases hc : c.cond = true
    · simp only [List.foldl_cons, latch_step, hc, Bool.not_false, Bool.and_self, if_pos]
      rw [foldl_latch_true]
      simp [hc]
    · have hc' : c.cond = false := by simpa using hc
      simp only [List.foldl_cons, latch_step, hc', Bool.false_and, if_neg Bool.false_ne_true]
      rw [ih]
      simp [hc']

/-- C6: across a whole run with constraint checking enabled, the list of
violation records written is the one-element prefix of the violations
occurring in replay order — so at most one record is ever written, it is
the first violation encountered, every later violation is suppressed by
the latched flag, and the closing `All impingement constraints met.` line
is written iff no violation ever occurred. -/
theorem C6_first_violation_latched (lim : Limits) (last_idx : ℕ) (run : List FiringVals) :
    (run_report lim last_idx run).2 =
      ((observed_violations lim run).map (Check.written last_idx)).take 1 ∧
    (run_report lim last_idx run).2.length ≤ 1 ∧
    (all_met_line lim last_idx run = true ↔ observed_violations lim run = []) := by
  have h := foldl_latch_false last_idx (run_checks lim run) []
  refine ⟨?_, ?_, ?_⟩
  · rw [run_report, h]
    simp [observed_violations]
  · rw [run_report, h]
    simpa using List.length_take_le 1 _
  · rw [all_met_line, run_report, h]
    simp [observed_violations, List.isEmpty_iff]

/-- C7 (amended): every record written to the impingement report carries
the first observed violation's constraint kind and observed value, but
its cell number is the observed cell only for window-constraint kinds;
for instantaneous kinds it is the stale loop index `i` — the mesh's last
face index — and no firing index is recorded at all (a `Written` record
has no firing field). -/
theorem C7_written_record_content (lim : Limits) (last_idx : ℕ) (run : List FiringVals) :
    ∀ w ∈ (run_report lim last_idx run).2,
      ∃ c, (observed_violations lim run).head? = some c ∧
        w.kind = c.kind ∧ w.value = c.value ∧
        w.cell = if c.kind.instantaneous = true then last_idx else c.face := by
  intro w hw
  rw [run_report, foldl_latch_false] at hw
  simp only [List.nil_append] at hw
  match hobs : (run_checks lim run).filter (fun c => c.cond) with
  | [] =>
    rw [hobs] at hw
    simp at hw
  | c :: rest =>
    rw [hobs] at hw
    simp only [List.map_cons, List.take_succ_cons, List.take_zero, List.mem_singleton] at hw
    subst hw
    exact ⟨c, by simp [observed_violations, hobs], rfl, rfl, rfl⟩

/-- C7 witness: the amended statement instantiated on the concrete
two-face run. -/
theorem C7_written_record_content_witness :
    ∃ c, (observed_violations c7_limits c7_run).head? = some c ∧
      (⟨VKind.pressure, 1, 8⟩ : Written).kind = c.kind ∧
      (⟨VKind.pressure, 1, 8⟩ : Written).value = c.value ∧
      (⟨VKind.pressure, 1, 8⟩ : Written).cell =
        if c.kind.instantaneous = true then 1 else c.face :=
  C7_written_record_content c7_limits 1 c7_run ⟨VKind.pressure, 1, 8⟩ (by
    norm_num [run_report, run_checks, firing_checks, face_checks, latch_step,
      Check.written, VKind.instantaneous, c7_limits, c7_run, List.enum, List.enumFrom])

/-- C7 counterexample: on a two-face mesh where only face 0 violates the
instantaneous pressure limit, the record written names cell 1 (the
mesh's last face index, from the stale loop variable `i` of RPOD.py
line 697), not the violating cell 0; so the report does not identify the
cell at which the violation was observed. -/
theorem C7_wrong_cell_counterexample :
    (run_report c7_limits 1 c7_run).2 = [⟨VKind.pressure, 1, 8⟩] ∧
    (observed_violations c7_limits c7_run).map (fun c => c.face) = [0] ∧
    (1 : ℕ) ≠ 0 := by
  refine ⟨?_, ?_, by norm_num⟩
  · norm_num [run_report, run_checks, firing_checks, face_checks, latch_step,
      Check.written, VKind.instantaneous, c7_limits, c7_run, List.enum, List.enumFrom]
  · norm_num [observed_violations, run_checks, firing_checks, face_checks,
      c7_limits, c7_run, List.enum, List.enumFrom]

theorem apply_thruster_mono (t : ℚ) (ht : 0 ≤ t) (st : CellAccum × FiringCell)
    (h : ThrusterHit) (hq : 0 ≤ h.heat_flux) :
    st.1.cum_strikes ≤ (apply_thruster t st h).1.cum_strikes ∧
    st.1.max_pressure ≤ (apply_thruster t st h).1.max_pressure ∧
    st.1.max_shear ≤ (apply_thruster t st h).1.max_shear ∧
    st.1.cum_heat_flux_load ≤ (apply_thruster t st h).1.cum_heat_flux_load := by
  rw [apply_thruster]
  by_cases hs : h.strike = true
  · simp only [hs, if_true]
    refine ⟨by simp, ?_, ?_, by simpa using mul_nonneg hq ht⟩
    · by_cases hp : st.1.max_pressure < st.2.pressures + h.pressure
      · simp only [hp, if_pos]
        exact le_of_lt hp
      · simp only [hp, if_neg, if_false]
        exact le_refl _
    · by_cases hp : st.1.max_shear < st.2.shear_stresses + |h.shear|
      · simp only [hp, if_pos]
        exact le_of_lt hp
      · simp only [hp, if_neg, if_false]
        exact le_refl _
  · simp [hs]

theorem foldl_apply_thruster_mono (t : ℚ) (ht : 0 ≤ t) :
    ∀ (hits : List ThrusterHit) (st : CellAccum × FiringCell),
    (∀ h ∈ hits, 0 ≤ h.heat_flux) →
    st.1.cum_strikes ≤ (hits.foldl (apply_thruster t) st).1.cum_strikes ∧
    st.1.max_pressure ≤ (hits.foldl (apply_thruster t) st).1.max_pressure ∧
    st.1.max_shear ≤ (hits.foldl (apply_thruster t) st).1.max_shear ∧
    st.1.cum_heat_flux_load ≤ (hits.foldl (apply_thruster t) st).1.cum_heat_flux_load := by
  intro hits
  induction hits with
  | nil =>
    intro st _
    exact ⟨le_refl _, le_refl _, le_refl _, le_refl _⟩
  | cons h hits ih =>
    intro st hq
    obtain ⟨s1, s2, s3, s4⟩ := apply_thruster_mono t ht st h (hq h (by simp))
    obtain ⟨r1, r2, r3, r4⟩ := ih (apply_thruster t st h)
      (fun g hg => hq g (List.mem_cons_of_mem h hg))
    exact ⟨le_trans s1 r1, le_trans s2 r2, le_trans s3 r3, le_trans s4 r4⟩

/-- C9: for every face and firing, given non-negative firing duration and
non-negative kinetics returns (pressure and heat flux), the per-face
cumulative strike count, cumulative heat-flux load, running max pressure
and running max shear after the firing are each at least their values
before it. -/
theorem C9_cumulative_monotone (firing_time : ℚ) (acc : CellAccum) (hits : List ThrusterHit)
    (hhits : ∀ h ∈ hits, 0 ≤ h.pressure ∧ 0 ≤ h.heat_flux) (ht : 0 ≤ firing_time) :
    acc.cum_strikes ≤ (process_cell_firing firing_time acc hits).1.cum_strikes ∧
    acc.max_pressure ≤ (process_cell_firing firing_time acc hits).1.max_pressure ∧
    acc.max_shear ≤ (process_cell_firing firing_time acc hits).1.max_shear ∧
    acc.cum_heat_flux_load ≤
      (process_cell_firing firing_time acc hits).1.cum_heat_flux_load :=
  foldl_apply_thruster_mono firing_time ht hits (acc, zero_firing_cell)
    (fun h hh => (hhits h hh).2)

/-- C9 witness: one striking thruster with unit kinetics returns on a
fresh cell, with a 2-second firing. -/
theorem C9_cumulative_monotone_witness :
    (⟨0, 0, 0, 0⟩ : CellAccum).cum_strikes ≤
      (process_cell_firing 2 ⟨0, 0, 0, 0⟩ [⟨true, 1, 1, 1⟩]).1.cum_strikes ∧
    (⟨0, 0, 0, 0⟩ : CellAccum).max_pressure ≤
      (process_cell_firing 2 ⟨0, 0, 0, 0⟩ [⟨true, 1, 1, 1⟩]).1.max_pressure ∧
    (⟨0, 0, 0, 0⟩ : CellAccum).max_shear ≤
      (process_cell_firing 2 ⟨0, 0, 0, 0⟩ [⟨true, 1, 1, 1⟩]).1.max_shear ∧
    (⟨0, 0, 0, 0⟩ : CellAccum).cum_heat_flux_load ≤
      (process_cell_firing 2 ⟨0, 0, 0, 0⟩ [⟨true, 1, 1, 1⟩]).1.cum_heat_flux_load :=
  C9_cumulative_monotone 2 ⟨0, 0, 0, 0⟩ [⟨true, 1, 1, 1⟩]
    (by intro h hh; fin_cases hh <;> exact ⟨by norm_num, by norm_num⟩) (by norm_num)

theorem foldl_apply_thruster_strikes (t : ℚ) :
    ∀ (hits : List ThrusterHit) (st : CellAccum × FiringCell),
    ((hits.foldl (apply_thruster t) st).2.strikes =
      if hits.any (fun h => h.strike) then 1 else st.2.strikes) ∧
    ((hits.foldl (apply_thruster t) st).1.cum_strikes =
      st.1.cum_strikes + (hits.countP (fun h => h.strike) : ℚ)) := by
  intro hits
  induction hits with
  | nil =>
    intro st
    simp
  | cons h hits ih =>
    intro st
    by_cases hs : h.strike = true
    · obtain ⟨ih1, ih2⟩ := ih (apply_thruster t st h)
      have hstep2 : (apply_thruster t st h).2.strikes = 1 := by
        rw [apply_thruster]
        simp [hs]
      have hstep1 : (apply_thruster t st h).1.cum_strikes = st.1.cum_strikes + 1 := by
        rw [apply_thruster]
        simp [hs]
      constructor
      · rw [List.foldl_cons, ih1, hstep2]
        simp [hs]
      · rw [List.foldl_cons, ih2, hstep1, List.countP_cons]
        simp [hs]
        push_cast
        ring
    · obtain ⟨ih1, ih2⟩ := ih st
      have hstep : apply_thruster t st h = st := by
        rw [apply_thruster]
        simp [hs]
      constructor
      · rw [List.foldl_cons, hstep, ih1]
        simp [hs]
      · rw [List.foldl_cons, hstep, ih2, List.countP_cons]
        simp [hs]

/-- C10: in one firing, a face's persisted per-firing `strikes` value is
1 if any active thruster strikes it and 0 otherwise (a logical OR, never
incremented past 1), while the face's cumulative strike counter grows by
exactly the number of striking thrusters; with k > 1 striking thrusters
the counter grows by k while `strikes` stays 1. -/
theorem C10_strikes_flag_vs_counter (firing_time : ℚ) (acc : CellAccum)
    (hits : List ThrusterHit) :
    (process_cell_firing firing_time acc hits).2.strikes =
      (if hits.any (fun h => h.strike) then 1 else 0) ∧
    (process_cell_firing firing_time acc hits).1.cum_strikes =
      acc.cum_strikes + (hits.countP (fun h => h.strike) : ℚ) := by
  obtain ⟨h1, h2⟩ := foldl_apply_thruster_strikes firing_time hits (acc, zero_firing_cell)
  exact ⟨by simpa [zero_firing_cell] using h1, h2⟩
